import Mathlib

/-!
Shallow embedding of the pdfstraighten library (Go) for verifying its
natural-language specification.

Conventions of the embedding:

* Go float64 values that reach comparisons and arithmetic in this code are
  modelled as exact rationals (every float64 value is a rational, and float
  comparisons agree with the exact rational comparisons of the represented
  values).
* External collaborators (go-fitz, pdfcpu, cimg, docangle, textorient and the
  Go standard library math functions) are modelled as parameters: a function
  field per collaborator call, carried either in an environment record or in
  the document record.
* Fallible Go functions returning (T, error) are modelled with Except; a Go
  runtime panic (index out of range) is a third outcome, modelled with the
  GoResult type.
-/

namespace Pdfstraighten

/-- Errors. Collaborator errors are opaque; the two errors constructed by
pdfstraighten itself (in getImageOnPage) get their own constructors. -/
inductive Err where
  | external (msg : String)
  | unexpectedResultCount (n pageIdx : Nat)
  | noImageFound (pageIdx : Nat)
deriving DecidableEq, Repr

/-- Outcome of a Go function that can also panic at runtime
(index out of range). -/
inductive GoResult (α : Type) where
  | ok (val : α)
  | err (e : Err)
  | panicked (msg : String)
deriving DecidableEq, Repr

/-- Model of the Go standard library float64 trigonometry used by
rotateImage: math.Pi is a float64 constant (an exact rational), and math.Cos,
math.Sin are float64 functions, hence functions on the rationals they
represent. They are collaborators of the embedding: rotateImage is verified
for an arbitrary trig model. -/
structure TrigModel where
  pi : ℚ
  cos : ℚ → ℚ
  sin : ℚ → ℚ

/-- Model of a cimg.Image: dimensions and pixel format. Pixel contents are
never inspected by pdfstraighten itself (rotation and compression of pixels
happen inside the cimg collaborator), so they are not part of the model. -/
structure CImage where
  width : Nat
  height : Nat
  format : Nat
deriving DecidableEq, Repr

/-- cimg chroma sampling modes (only Sampling444 is used by this code). -/
inductive Sampling where
  | sampling444
  | sampling420
deriving DecidableEq, Repr

/-- cimg.CompressParams as produced by cimg.MakeCompressParams. -/
structure CompressParams where
  sampling : Sampling
  quality : Nat
  flags : Nat
deriving DecidableEq, Repr

/-- cimg.MakeCompressParams(sampling, quality, flags). -/
def makeCompressParams (s : Sampling) (q f : Nat) : CompressParams :=
  ⟨s, q, f⟩

/-- The output of straightenImage for one page, keeping the two return
paths of the Go code distinct: either the original raw bytes are passed
through unchanged, or the image is freshly encoded by the cimg collaborator
with the given parameters. -/
inductive StraightenOutput where
  | passthrough (raw : List Nat)
  | encoded (img : CImage) (params : CompressParams)
deriving DecidableEq, Repr

/-- Model of an assembled output PDF: pdfapi.ImportImages produces one page
per input image, in input order; each page carries its image. -/
structure AssembledPDF where
  pages : List StraightenOutput
deriving DecidableEq, Repr

/-- pdfcpu import position values used by buildNewPDF. -/
inductive ImportPos where
  | center
  | full
deriving DecidableEq, Repr

/-- The fields of the pdfcpu import configuration that buildNewPDF sets. -/
structure ImportConfig where
  scale : ℚ
  pos : ImportPos
deriving DecidableEq, Repr

/-- Environment of external collaborator functions used by the pipeline:
* decompress: cimg.Decompress (raw bytes to decoded image);
* orient: textorient MakeUpright. Its contract (spec section 4.3) is that it
  returns either the very image it was given (no change; in Go this is
  pointer-identical to the argument) or a newly allocated transformed image.
  We model the first case as none and the second as some of the new image;
* importImages: pdfapi.ImportImages, consuming the page images in order;
* trig: the math library model for rotateImage. -/
structure Env where
  trig : TrigModel
  decompress : List Nat → Except Err CImage
  orient : CImage → Except Err (Option CImage)
  importImages : ImportConfig → List StraightenOutput → Except Err AssembledPDF

/-- The crop tolerance constant of rotateImage. -/
def cropLimitDegrees : ℚ := 5

/-- Canvas dimensions chosen by rotateImage (src/straighten.go) for an input
of width w, height h at the given angle in degrees:
* if |angle| <= 5 the canvas is (w, h);
* else if |angle - 90| <= 5 or |angle + 90| <= 5 the canvas is (h, w);
* otherwise newWidth = int(w*|cos(angle*pi/180)| + h*|sin(angle*pi/180)|)
  and newHeight = int(w*|sin(angle*pi/180)| + h*|cos(angle*pi/180)|),
  where int() is the Go truncation, which on these non-negative values is
  the floor. -/
def rotateImageDims (trig : TrigModel) (w h : Nat) (angle : ℚ) : ℤ × ℤ :=
  if |angle| ≤ cropLimitDegrees then
    (w, h)
  else if |angle - 90| ≤ cropLimitDegrees ∨ |angle + 90| ≤ cropLimitDegrees then
    (h, w)
  else
    let cosA := |trig.cos (angle * trig.pi / 180)|
    let sinA := |trig.sin (angle * trig.pi / 180)|
    (⌊(w : ℚ) * cosA + (h : ℚ) * sinA⌋, ⌊(w : ℚ) * sinA + (h : ℚ) * cosA⌋)

/-- rotateImage (src/straighten.go): allocates a fresh canvas with the
dimensions of rotateImageDims and the input pixel format, and has the cimg
collaborator rotate the pixels into it. The pixel contents live inside the
collaborator and are not modelled; the allocation is always a new image,
never the argument itself. -/
def rotateImage (trig : TrigModel) (img : CImage) (angle : ℚ) : CImage :=
  let dims := rotateImageDims trig img.width img.height angle
  { width := dims.1.toNat, height := dims.2.toNat, format := img.format }

/-- straightenImage (src/straighten.go):

    fixed := img
    if angle != 0 { fixed = rotateImage(img, -angle) }
    upright, err := orient.MakeUpright(fixed)
    if err != nil { return nil, err }
    if upright == img { return raw, nil }
    return cimg.Compress(upright, MakeCompressParams(Sampling444, 95, 0))

The Go test upright == img is pointer equality against the ORIGINAL image.
MakeUpright returns either its argument (modelled .ok none) or a fresh
allocation (modelled .ok (some u)); rotateImage also always returns a fresh
allocation. Hence upright == img holds exactly when MakeUpright returned its
argument unchanged AND fixed is img itself, i.e. the angle == 0 path where no
rotation was allocated. The encoded output carries the upright image and the
fixed compression profile. -/
def straightenImage (env : Env) (raw : List Nat) (img : CImage) (angle : ℚ) :
    Except Err StraightenOutput :=
  let fixed := if angle ≠ 0 then rotateImage env.trig img (-angle) else img
  match env.orient fixed with
  | .error e => .error e
  | .ok none =>
      if angle = 0 then
        .ok (.passthrough raw)
      else
        .ok (.encoded fixed (makeCompressParams .sampling444 95 0))
  | .ok (some u) => .ok (.encoded u (makeCompressParams .sampling444 95 0))

/-- One entry of a pdfapi.Images result: dimensions of an embedded image. -/
structure ImgInfo where
  width : Nat
  height : Nat
deriving DecidableEq, Repr

/-- One entry of a pdfapi.ExtractImagesRaw per-page map: whether its Reader
field is nil, and the outcome of io.ReadAll on it. -/
structure RawImg where
  readerNil : Bool
  readResult : Except Err (List Nat)

/-- Model of a loaded Document from the point of view of the pipeline:
the page count plus the observable behaviour of the collaborator calls made
through its fz and reader handles.
* imagesAll: the result of pdfapi.Images(reader, allPages) over every page,
  one inner list per page in page order (the per-page map of pdfcpu, with
  image dimensions);
* extractRaw i: the result of pdfapi.ExtractImagesRaw(reader, [page i+1]),
  a list of per-page maps (one map expected, since one page is requested);
  each Go map is modelled as a list, its unspecified iteration order fixed
  to the list order;
* text i: the result of fz.Text(i). -/
structure Doc where
  numPages : Nat
  imagesAll : Except Err (List (List ImgInfo))
  extractRaw : Nat → Except Err (List (List RawImg))
  text : Nat → Except Err String

/-- The image-checking loop of IsScanned (src/straighten.go): for each page
entry of the pdfapi.Images result, return false if the page does not have
exactly one image, or if its image has fewer than 800*600 pixels. -/
def checkImages : List (List ImgInfo) → Bool
  | [] => true
  | pg :: rest =>
      if pg.length ≠ 1 then false
      else if pg.any (fun im => im.width * im.height < 800 * 600) then false
      else checkImages rest

/-- The text-checking loop of IsScanned: for each page, fz.Text(i); an error
propagates, a non-empty text returns false, otherwise continue. -/
def checkTexts : List (Except Err String) → Except Err Bool
  | [] => .ok true
  | t :: rest =>
      match t with
      | .error e => .error e
      | .ok txt => if txt ≠ "" then .ok false else checkTexts rest

/-- IsScanned (src/straighten.go): enumerate the images of every page with
pdfapi.Images (an error propagates); return false as soon as a page does not
have exactly one image of at least 800*600 pixels; then extract each page
text with fz.Text (an error propagates); return false as soon as a page has
non-empty text; otherwise true. -/
def IsScanned (d : Doc) : Except Err Bool :=
  match d.imagesAll with
  | .error e => .error e
  | .ok allImages =>
      if checkImages allImages then
        checkTexts ((List.range d.numPages).map d.text)
      else
        .ok false

/-- getImageOnPage (src/straighten.go): extract the raw images of one page
with pdfapi.ExtractImagesRaw (an error propagates); error if the number of
per-page results is not 1; take the first image of the page map (Go map
iteration order is unspecified, modelled as the list head); error if its
Reader is nil; read its bytes (an error propagates); decode them with
cimg.Decompress (an error propagates); return the raw bytes and the decoded
image. An empty page map falls through the loop to the noImageFound error. -/
def getImageOnPage (env : Env) (d : Doc) (pageIdx : Nat) :
    Except Err (List Nat × CImage) :=
  match d.extractRaw pageIdx with
  | .error e => .error e
  | .ok images =>
      if images.length ≠ 1 then .error (.unexpectedResultCount images.length pageIdx)
      else
        match images with
        | [] => .error (.noImageFound pageIdx)
        | imageMap :: _ =>
            match imageMap with
            | [] => .error (.noImageFound pageIdx)
            | img :: _ =>
                if img.readerNil then .error (.noImageFound pageIdx)
                else
                  match img.readResult with
                  | .error e => .error e
                  | .ok raw =>
                      match env.decompress raw with
                      | .error e => .error e
                      | .ok decoded => .ok (raw, decoded)

/-- The per-page body of the StraightenedImages loop (src/straighten.go),
iterated from page for the given number of remaining pages:

    raw, img, err := d.getImageOnPage(page)   // error propagates
    angle := pageAngles[page]                 // no bounds check: may panic
    fixed, err := d.straightenImage(...)      // error propagates
    straightImages = append(straightImages, fixed)
-/
def straightenedImagesFrom (env : Env) (d : Doc) (pageAngles : List ℚ)
    (page : Nat) : Nat → GoResult (List StraightenOutput)
  | 0 => .ok []
  | n + 1 =>
      match getImageOnPage env d page with
      | .error e => .err e
      | .ok (raw, img) =>
          match pageAngles[page]? with
          | none => .panicked "index out of range"
          | some angle =>
              match straightenImage env raw img angle with
              | .error e => .err e
              | .ok fixed =>
                  match straightenedImagesFrom env d pageAngles (page + 1) n with
                  | .ok rest => .ok (fixed :: rest)
                  | .err e => .err e
                  | .panicked m => .panicked m

/-- StraightenedImages (src/straighten.go): straighten the image of every
page 0 .. NumPages-1 with the caller-supplied page angles, in page order. -/
def StraightenedImages (env : Env) (d : Doc) (pageAngles : List ℚ) :
    GoResult (List StraightenOutput) :=
  straightenedImagesFrom env d pageAngles 0 d.numPages

/-- buildNewPDF (src/straighten.go): import the page images, in order, with
Scale = 1 and Pos = Full (the page size matches the image size). -/
def buildNewPDF (env : Env) (images : List StraightenOutput) :
    Except Err AssembledPDF :=
  env.importImages { scale := 1, pos := .full } images

/-- Straighten (src/straighten.go): StraightenedImages then buildNewPDF. -/
def Straighten (env : Env) (d : Doc) (pageAngles : List ℚ) :
    GoResult AssembledPDF :=
  match StraightenedImages env d pageAngles with
  | .err e => .err e
  | .panicked m => .panicked m
  | .ok imgs =>
      match buildNewPDF env imgs with
      | .error e => .err e
      | .ok pdf => .ok pdf

/-- Model of a go-fitz document handle: only its page count is observed. -/
structure Fitz where
  numPage : Nat
deriving DecidableEq, Repr

/-- Opaque model of an open OS file handle. -/
structure GoFile where
  handle : Nat
deriving DecidableEq, Repr

/-- The Document struct (src/straighten.go): the fitz handle, the byte-level
reader (none models a nil reader), and NumPages. -/
structure Document where
  fz : Option Fitz
  reader : Option GoFile
  NumPages : Nat
deriving DecidableEq, Repr

/-- newDocument (src/straighten.go): wraps the handles, NumPages from
fz.NumPage(); never fails. -/
def newDocument (fz : Fitz) (reader : Option GoFile) : Except Err Document :=
  .ok { fz := some fz, reader := reader, NumPages := fz.numPage }

/-- NewDocumentFromFile (src/straighten.go):

    fz, err := fitz.New(filename)
    if err != nil { return nil, err }
    file, err := os.Open(filename)
    return newDocument(fz, file)

The error of os.Open is discarded; when os.Open fails it returns a nil file
handle, which becomes the reader of the returned Document. The collaborators
fitz.New and os.Open are parameters. -/
def NewDocumentFromFile (fitzNew : String → Except Err Fitz)
    (osOpen : String → Except Err GoFile) (filename : String) :
    Except Err Document :=
  match fitzNew filename with
  | .error e => .error e
  | .ok fz =>
      let file : Option GoFile :=
        match osOpen filename with
        | .ok f => some f
        | .error _ => none
      newDocument fz file

/-- The hardcoded configuration of the current CLI
(src/cmd/straighten/straighten.go, main): allow90Degrees := true. -/
def cliAllow90Degrees : Bool := true

/-- The per-angle normalization of the current CLI
(src/cmd/straighten/straighten.go, main):

    if a != 0 {
      nRotated++
      if !allow90Degrees && (a > 80 && a < 100) { angles[i] = a - 90 }
    }
-/
def normalizeAngle (allow90Degrees : Bool) (a : ℚ) : ℚ :=
  if a ≠ 0 then
    if ¬allow90Degrees ∧ (80 < a ∧ a < 100) then a - 90 else a
  else a

/-- The angle-normalization loop of the current CLI applied to the whole
angle slice. -/
def normalizeAngles (allow90Degrees : Bool) (angles : List ℚ) : List ℚ :=
  angles.map (normalizeAngle allow90Degrees)

/-- The per-angle normalization of the historical CLI revision
(src/unnamed/part_000, main):

    if a != 0 {
      nRotated++
      if a > 80 && a < 100 { angles[i] = a - 90 }
    }
-/
def normalizeAngleOld (a : ℚ) : ℚ :=
  if a ≠ 0 then
    if 80 < a ∧ a < 100 then a - 90 else a
  else a

/-- The angle-normalization loop of the historical CLI revision applied to
the whole angle slice. -/
def normalizeAnglesOld (angles : List ℚ) : List ℚ :=
  angles.map normalizeAngleOld

/-- The rotated-page counter of both CLI loops. -/
def countRotated (angles : List ℚ) : Nat :=
  (angles.filter (fun a => a ≠ 0)).length

/-! Concrete collaborator instances used for witnesses and counterexamples. -/

/-- A concrete trig model (arbitrary rational values standing in for the
float64 results of the math library). -/
def trigW : TrigModel :=
  { pi := 314159 / 100000, cos := fun _ => 7 / 10, sin := fun _ => 7 / 10 }

/-- A concrete decoded image. -/
def imgW : CImage := { width := 800, height := 600, format := 0 }

/-- A concrete image distinct from imgW, standing in for the output of an
upright transformation. -/
def imgFlipW : CImage := { width := 600, height := 800, format := 0 }

/-- A concrete ImportImages collaborator: one page per image, in order. -/
def importImagesW : ImportConfig → List StraightenOutput → Except Err AssembledPDF :=
  fun _ imgs => .ok ⟨imgs⟩

/-- An environment whose upright collaborator always returns its argument
unchanged. -/
def envSame : Env :=
  { trig := trigW
  , decompress := fun _ => .ok imgW
  , orient := fun _ => .ok none
  , importImages := importImagesW }

/-- An environment whose upright collaborator always returns a freshly
allocated transformed image. -/
def envFlip : Env :=
  { trig := trigW
  , decompress := fun _ => .ok imgW
  , orient := fun _ => .ok (some imgFlipW)
  , importImages := importImagesW }

/-- A raw image entry with two readable bytes. -/
def rawImgA : RawImg := { readerNil := false, readResult := .ok [10, 11] }

/-- A raw image entry with one readable byte. -/
def rawImgB : RawImg := { readerNil := false, readResult := .ok [12] }

/-- A one-page document whose page carries exactly one large image and no
text. -/
def docOneImage : Doc :=
  { numPages := 1
  , imagesAll := .ok [[⟨800, 600⟩]]
  , extractRaw := fun _ => .ok [[rawImgB]]
  , text := fun _ => .ok "" }

/-- A one-page document whose page carries two embedded images. -/
def docTwoImages : Doc :=
  { numPages := 1
  , imagesAll := .ok [[⟨800, 600⟩, ⟨800, 600⟩]]
  , extractRaw := fun _ => .ok [[rawImgA, rawImgB]]
  , text := fun _ => .ok "" }

/-- A one-page document whose image enumeration fails. -/
def docImgErr : Doc :=
  { numPages := 1
  , imagesAll := .error (.external "enumeration failed")
  , extractRaw := fun _ => .ok [[rawImgB]]
  , text := fun _ => .ok "" }

end Pdfstraighten

namespace Pdfstraighten

/-! Claim theorems. -/

/-- C3: for every input image (width w, height h) and non-zero angle,
rotateImage chooses the output canvas as follows: if |angle| <= 5 the canvas
is (w, h) unchanged; if |angle - 90| <= 5 or |angle + 90| <= 5 the canvas is
(h, w) swapped; otherwise the canvas is
newWidth = |w cos angle| + |h sin angle| and
newHeight = |w sin angle| + |h cos angle| (angle converted to radians with
the math library constants), truncated to integers. -/
theorem c3_canvas_sizing (trig : TrigModel) (w h : Nat) (angle : ℚ)
    (hnz : angle ≠ 0) :
    (|angle| ≤ 5 → rotateImageDims trig w h angle = ((w : ℤ), (h : ℤ))) ∧
    ((|angle - 90| ≤ 5 ∨ |angle + 90| ≤ 5) →
      rotateImageDims trig w h angle = ((h : ℤ), (w : ℤ))) ∧
    (¬(|angle| ≤ 5) → ¬(|angle - 90| ≤ 5 ∨ |angle + 90| ≤ 5) →
      rotateImageDims trig w h angle =
        (⌊(w : ℚ) * |trig.cos (angle * trig.pi / 180)| +
            (h : ℚ) * |trig.sin (angle * trig.pi / 180)|⌋,
         ⌊(w : ℚ) * |trig.sin (angle * trig.pi / 180)| +
            (h : ℚ) * |trig.cos (angle * trig.pi / 180)|⌋)) := by
  unfold rotateImageDims cropLimitDegrees
  refine ⟨fun h1 => ?_, fun h2 => ?_, fun hn1 hn2 => ?_⟩
  · rw [if_pos h1]
  · have hn1 : ¬(|angle| ≤ (5 : ℚ)) := by
      intro habs
      rw [abs_le] at habs
      rcases h2 with h | h <;> rw [abs_le] at h <;>
        [linarith [habs.2, h.1]; linarith [habs.1, h.2]]
    rw [if_neg hn1, if_pos h2]
  · rw [if_neg hn1, if_neg hn2]

/-- C3 witness: the three tiers at concrete inputs. -/
theorem c3_witness :
    rotateImageDims trigW 100 200 3 = (100, 200) ∧
    rotateImageDims trigW 100 200 88 = (200, 100) ∧
    rotateImageDims trigW 100 200 45 = (210, 210) := by
  refine ⟨?_, ?_, ?_⟩
  · exact (c3_canvas_sizing trigW 100 200 3 (by norm_num)).1 (by
      rw [abs_le]; constructor <;> norm_num)
  · exact (c3_canvas_sizing trigW 100 200 88 (by norm_num)).2.1 (Or.inl (by
      rw [abs_le]; constructor <;> norm_num))
  · have h := (c3_canvas_sizing trigW 100 200 45 (by norm_num)).2.2
      (by rw [not_le, lt_abs]; norm_num)
      (by
        push_neg
        constructor <;> rw [lt_abs] <;> norm_num)
    rw [h]
    rw [show trigW.cos (45 * trigW.pi / 180) = 7 / 10 from rfl,
        show trigW.sin (45 * trigW.pi / 180) = 7 / 10 from rfl,
        show |(7 : ℚ) / 10| = 7 / 10 from by rw [abs_of_pos]; norm_num]
    rw [Prod.ext_iff]
    constructor <;> norm_num

/-- C1 counterexample: the claim fails as stated. At angle 0 the code still
runs the upright-orientation collaborator; when that collaborator returns a
transformed image (for instance an upside-down page flipped upright), the
output is a fresh encode, not the raw bytes. -/
theorem c1_counterexample :
    straightenImage envFlip [1, 2, 3] imgW 0 =
      .ok (.encoded imgFlipW (makeCompressParams .sampling444 95 0)) ∧
    straightenImage envFlip [1, 2, 3] imgW 0 ≠ .ok (.passthrough [1, 2, 3]) := by
  constructor
  · rfl
  · intro h
    rw [show straightenImage envFlip [1, 2, 3] imgW 0 =
        .ok (.encoded imgFlipW (makeCompressParams .sampling444 95 0)) from rfl] at h
    simp at h

/-- C1 amended: for every page whose resolved angle is exactly 0 AND whose
image the upright-orientation collaborator returns unchanged, straightenImage
returns the original raw bytes, byte for byte, with no re-encode. -/
theorem c1_passthrough_amended (env : Env) (raw : List Nat) (img : CImage)
    (hup : env.orient img = .ok none) :
    straightenImage env raw img 0 = .ok (.passthrough raw) := by
  simp [straightenImage, hup]

/-- C1 witness: a concrete angle-0 page with an unchanged upright result is
passed through. -/
theorem c1_witness :
    straightenImage envSame [9, 8] imgW 0 = .ok (.passthrough [9, 8]) :=
  c1_passthrough_amended envSame [9, 8] imgW rfl

/-- C7: for every page whose angle is non-zero, straightenImage either fails
or outputs a freshly encoded image with the fixed encode profile
(4:4:4 sampling, quality 95) - never the raw pass-through bytes - even when
the upright-orientation collaborator returns the rotated image unchanged. -/
theorem c7_nonzero_reencode (env : Env) (raw : List Nat) (img : CImage)
    (angle : ℚ) (hnz : angle ≠ 0) (out : StraightenOutput)
    (hout : straightenImage env raw img angle = .ok out) :
    ∃ u, out = .encoded u (makeCompressParams .sampling444 95 0) := by
  rcases horient : env.orient (rotateImage env.trig img (-angle)) with e | u
  · simp [straightenImage, hnz, horient] at hout
  · cases u with
    | none =>
        simp [straightenImage, hnz, horient] at hout
        exact ⟨rotateImage env.trig img (-angle), hout.symm⟩
    | some v =>
        simp [straightenImage, hnz, horient] at hout
        exact ⟨v, hout.symm⟩

/-- C7 witness: a concrete page at angle 1, whose upright collaborator
returns the rotated image unchanged, is re-encoded with the fixed profile. -/
theorem c7_witness :
    ∃ u, StraightenOutput.encoded (rotateImage trigW imgW (-1))
        (makeCompressParams .sampling444 95 0) =
      .encoded u (makeCompressParams .sampling444 95 0) :=
  c7_nonzero_reencode envSame [1] imgW 1 (by norm_num)
    (.encoded (rotateImage trigW imgW (-1)) (makeCompressParams .sampling444 95 0))
    rfl

/-- C2 counterexample: in the current CLI (src/cmd/straighten/straighten.go)
the allow90Degrees flag is hardcoded to true, so a raw angle of 91 is left
at 91, not normalized to 1. -/
theorem c2_counterexample :
    normalizeAngle cliAllow90Degrees 91 = 91 ∧ (91 : ℚ) - 90 = 1 ∧
      normalizeAngle cliAllow90Degrees 91 ≠ (91 : ℚ) - 90 := by
  refine ⟨?_, by norm_num, ?_⟩ <;> norm_num [normalizeAngle, cliAllow90Degrees]

/-- C2 amended: the 90-degree normalization of the CLI callers is guarded.
With the current CLI hardcoded flag allow90Degrees = true the decision always
equals the raw angle unchanged; only with the flag false - and in the
historical CLI revision, which normalizes unconditionally - does the decision
equal a - 90 for 80 < a < 100 (strictly) and a unchanged for a <= 80 or
a >= 100. -/
theorem c2_normalization_amended (a : ℚ) :
    normalizeAngle cliAllow90Degrees a = a ∧
    (80 < a → a < 100 →
      normalizeAngle false a = a - 90 ∧ normalizeAngleOld a = a - 90) ∧
    (a ≤ 80 ∨ 100 ≤ a →
      normalizeAngle false a = a ∧ normalizeAngleOld a = a) := by
  refine ⟨?_, fun h80 h100 => ?_, fun hout => ?_⟩
  · unfold normalizeAngle
    split_ifs with h1 h2
    · exact absurd rfl h2.1
    · rfl
    · rfl
  · have hne : a ≠ 0 := ne_of_gt (by linarith)
    constructor
    · unfold normalizeAngle
      rw [if_pos hne, if_pos ⟨by simp, ⟨h80, h100⟩⟩]
    · unfold normalizeAngleOld
      rw [if_pos hne, if_pos ⟨h80, h100⟩]
  · have h1 : ¬(80 < a ∧ a < 100) := by
      rcases hout with h | h <;> intro hc <;> linarith [hc.1, hc.2]
    constructor
    · unfold normalizeAngle
      split_ifs with h2 h3
      · exact absurd h3.2 h1
      · rfl
      · rfl
    · unfold normalizeAngleOld
      split_ifs <;> rfl

/-- C2 witness: concrete angles through both callers. -/
theorem c2_witness :
    normalizeAngle cliAllow90Degrees 91 = 91 ∧ normalizeAngle false 91 = 1 ∧
      normalizeAngleOld 91 = 1 ∧ normalizeAngle false 50 = 50 := by
  refine ⟨(c2_normalization_amended 91).1, ?_, ?_, ?_⟩
  · have h := ((c2_normalization_amended 91).2.1 (by norm_num) (by norm_num)).1
    rw [h]; norm_num
  · have h := ((c2_normalization_amended 91).2.1 (by norm_num) (by norm_num)).2
    rw [h]; norm_num
  · exact ((c2_normalization_amended 50).2.2 (Or.inl (by norm_num))).1

/-- Helper: a successful image enumeration reduces IsScanned to the image
check followed by the text check. -/
theorem isScanned_eq (d : Doc) (allImages : List (List ImgInfo))
    (himg : d.imagesAll = .ok allImages) :
    IsScanned d =
      if checkImages allImages then
        checkTexts ((List.range d.numPages).map d.text)
      else .ok false := by
  unfold IsScanned
  rw [himg]

/-- Helper: a failing image enumeration makes IsScanned fail with the same
error. -/
theorem isScanned_error (d : Doc) (e : Err) (himg : d.imagesAll = .error e) :
    IsScanned d = .error e := by
  unfold IsScanned
  rw [himg]

/-- Helper: the image-checking loop accepts exactly the image lists in which
every page has exactly one image of at least 800*600 pixels. -/
theorem checkImages_iff (l : List (List ImgInfo)) :
    checkImages l = true ↔
      ∀ pg ∈ l, pg.length = 1 ∧ ∀ im ∈ pg, 800 * 600 ≤ im.width * im.height := by
  induction l with
  | nil => simp [checkImages]
  | cons pg rest ih =>
      unfold checkImages
      rw [List.forall_mem_cons]
      split_ifs with h1 h2
      · simp only [false_iff]
        intro hc
        exact h1 hc.1.1
      · simp only [false_iff]
        intro hc
        rw [List.any_eq_true] at h2
        obtain ⟨im, him, hlt⟩ := h2
        have hge := hc.1.2 im him
        simp only [decide_eq_true_eq] at hlt
        omega
      · have hlen : pg.length = 1 := not_not.mp h1
        have hbig : ∀ im ∈ pg, 800 * 600 ≤ im.width * im.height := by
          intro im him
          by_contra hlt
          exact h2 (List.any_eq_true.mpr ⟨im, him, by simpa using lt_of_not_le hlt⟩)
        rw [ih]
        exact ⟨fun hr => ⟨⟨hlen, hbig⟩, hr⟩, fun hc => hc.2⟩

/-- Helper: any violating page makes the image-checking loop reject. -/
theorem checkImages_false_of_violation (l : List (List ImgInfo))
    (pg : List ImgInfo) (hmem : pg ∈ l)
    (hviol : pg.length ≠ 1 ∨ ∃ im ∈ pg, im.width * im.height < 800 * 600) :
    checkImages l = false := by
  cases hck : checkImages l with
  | false => rfl
  | true =>
      exfalso
      have h := (checkImages_iff l).mp hck pg hmem
      rcases hviol with h1 | ⟨im, him, hlt⟩
      · exact h1 h.1
      · have := h.2 im him
        omega

/-- Helper: the text-checking loop returns true exactly when every page text
extraction succeeded with an empty string. -/
theorem checkTexts_ok_true_iff (l : List (Except Err String)) :
    checkTexts l = .ok true ↔ ∀ t ∈ l, t = .ok "" := by
  induction l with
  | nil => simp [checkTexts]
  | cons t rest ih =>
      rw [List.forall_mem_cons]
      cases t with
      | error e => simp [checkTexts]
      | ok txt =>
          by_cases h : txt = ""
          · subst h
            simp [checkTexts, ih]
          · simp [checkTexts, h]

/-- Helper: the text-checking loop propagates the first error reached after
a prefix of empty texts. -/
theorem checkTexts_append_error (pre : List (Except Err String)) (e : Err)
    (suf : List (Except Err String)) (hpre : ∀ t ∈ pre, t = .ok "") :
    checkTexts (pre ++ .error e :: suf) = .error e := by
  induction pre with
  | nil => simp [checkTexts]
  | cons t ts ih =>
      have ht : t = .ok "" := hpre t (List.mem_cons_self t ts)
      subst ht
      rw [List.cons_append]
      have hstep : checkTexts (Except.ok "" :: (ts ++ Except.error e :: suf)) =
          checkTexts (ts ++ Except.error e :: suf) := by
        simp [checkTexts]
      rw [hstep]
      exact ih (fun u hu => hpre u (List.mem_cons_of_mem _ hu))

/-- Helper: if every element of the text list is a success and some element
is non-empty, the text-checking loop returns false. -/
theorem checkTexts_ok_false (l : List (Except Err String))
    (hall : ∀ t ∈ l, ∃ s, t = .ok s)
    (hne : ∃ s, Except.ok s ∈ l ∧ s ≠ "") :
    checkTexts l = .ok false := by
  induction l with
  | nil =>
      obtain ⟨s, hmem, _⟩ := hne
      simp at hmem
  | cons t rest ih =>
      obtain ⟨s0, hs0⟩ := hall t (List.mem_cons_self t rest)
      subst hs0
      by_cases h0 : s0 = ""
      · subst h0
        have hstep : checkTexts (Except.ok "" :: rest) = checkTexts rest := by
          simp [checkTexts]
        rw [hstep]
        apply ih
        · exact fun u hu => hall u (List.mem_cons_of_mem _ hu)
        · obtain ⟨s, hmem, hsne⟩ := hne
          rcases List.mem_cons.mp hmem with heq | hmem2
          · injection heq with hinj
            exact absurd hinj hsne
          · exact ⟨s, hmem2, hsne⟩
      · simp [checkTexts, h0]

/-- C4: IsScanned returns true exactly when every page of the enumeration
has exactly one embedded image of at least 800*600 = 480000 pixels and every
page text extraction succeeds with an empty string; any single page with an
image-count or image-size violation forces a false result regardless of the
text collaborator (the image loop short-circuits first); a non-empty text on
any page, with the image check passing and text extraction succeeding,
forces a false result. -/
theorem c4_isScanned_characterization (d : Doc) :
    (IsScanned d = .ok true ↔
      (∃ allImages, d.imagesAll = .ok allImages ∧
        ∀ pg ∈ allImages,
          pg.length = 1 ∧ ∀ im ∈ pg, 800 * 600 ≤ im.width * im.height) ∧
      (∀ i < d.numPages, d.text i = .ok "")) ∧
    (∀ allImages pg, d.imagesAll = .ok allImages → pg ∈ allImages →
      (pg.length ≠ 1 ∨ ∃ im ∈ pg, im.width * im.height < 800 * 600) →
      IsScanned d = .ok false) ∧
    (∀ allImages i s, d.imagesAll = .ok allImages →
      (∀ pg ∈ allImages,
        pg.length = 1 ∧ ∀ im ∈ pg, 800 * 600 ≤ im.width * im.height) →
      i < d.numPages → (∀ j < d.numPages, ∃ t, d.text j = .ok t) →
      d.text i = .ok s → s ≠ "" → IsScanned d = .ok false) := by
  refine ⟨?_, ?_, ?_⟩
  · constructor
    · intro h
      rcases himg : d.imagesAll with e | allImages
      · rw [isScanned_error d e himg] at h
        cases h
      · rw [isScanned_eq d allImages himg] at h
        by_cases hc : checkImages allImages
        · rw [if_pos hc, checkTexts_ok_true_iff] at h
          refine ⟨⟨allImages, rfl, (checkImages_iff allImages).mp hc⟩, ?_⟩
          intro i hi
          exact h (d.text i) (List.mem_map_of_mem d.text (List.mem_range.mpr hi))
        · rw [if_neg hc] at h
          cases h
    · rintro ⟨⟨allImages, himg, hP⟩, htexts⟩
      rw [isScanned_eq d allImages himg,
        if_pos ((checkImages_iff allImages).mpr hP), checkTexts_ok_true_iff]
      intro t ht
      obtain ⟨i, hi, rfl⟩ := List.mem_map.mp ht
      exact htexts i (List.mem_range.mp hi)
  · intro allImages pg himg hmem hviol
    rw [isScanned_eq d allImages himg,
      checkImages_false_of_violation allImages pg hmem hviol]
    rfl
  · intro allImages i s himg hP hi hall hti hsne
    rw [isScanned_eq d allImages himg,
      if_pos ((checkImages_iff allImages).mpr hP)]
    apply checkTexts_ok_false
    · intro t ht
      obtain ⟨j, hj, rfl⟩ := List.mem_map.mp ht
      exact hall j (List.mem_range.mp hj)
    · refine ⟨s, ?_, hsne⟩
      rw [← hti]
      exact List.mem_map_of_mem d.text (List.mem_range.mpr hi)

/-- C4 witness: a one-page document with one 800x600 image and no text is
scanned. -/
theorem c4_witness : IsScanned docOneImage = .ok true :=
  (c4_isScanned_characterization docOneImage).1.mpr
    ⟨⟨[[⟨800, 600⟩]], rfl, by
        intro pg hpg
        simp only [List.mem_singleton] at hpg
        subst hpg
        refine ⟨rfl, ?_⟩
        intro im him
        simp only [List.mem_singleton] at him
        subst him
        norm_num⟩,
      fun i _ => rfl⟩

/-- C8: a failing image enumeration propagates its error unchanged as the
result of IsScanned; a text-extraction error reached by the text loop (image
check passed, all earlier texts empty) propagates unchanged; and an ok
result implies the image enumeration did not fail - errors are never
downgraded to a false result. -/
theorem c8_error_propagation (d : Doc) :
    (∀ e, d.imagesAll = .error e → IsScanned d = .error e) ∧
    (∀ allImages i e, d.imagesAll = .ok allImages →
      (∀ pg ∈ allImages,
        pg.length = 1 ∧ ∀ im ∈ pg, 800 * 600 ≤ im.width * im.height) →
      i < d.numPages → (∀ j < i, d.text j = .ok "") → d.text i = .error e →
      IsScanned d = .error e) ∧
    (∀ b, IsScanned d = .ok b → ∃ allImages, d.imagesAll = .ok allImages) := by
  refine ⟨fun e himg => isScanned_error d e himg, ?_, ?_⟩
  · intro allImages i e himg hP hi hpre hie
    rw [isScanned_eq d allImages himg,
      if_pos ((checkImages_iff allImages).mpr hP)]
    have hsplit : List.range d.numPages =
        List.range' 0 i ++ i :: List.range' (i + 1) (d.numPages - i - 1) := by
      rw [List.range_eq_range']
      rw [show d.numPages = (d.numPages - i - 1 + 1) + i from by omega,
        ← List.range'_append_1]
      simp [List.range'_succ]
    rw [hsplit, List.map_append, List.map_cons, hie]
    apply checkTexts_append_error
    intro t ht
    obtain ⟨j, hj, rfl⟩ := List.mem_map.mp ht
    rw [List.mem_range'_1] at hj
    exact hpre j (by omega)
  · intro b hok
    rcases himg : d.imagesAll with e | aI
    · rw [isScanned_error d e himg] at hok
      cases hok
    · exact ⟨aI, rfl⟩

/-- C8 witness: a concrete document whose image enumeration fails has its
error propagated by IsScanned. -/
theorem c8_witness : IsScanned docImgErr = .error (.external "enumeration failed") :=
  (c8_error_propagation docImgErr).1 (.external "enumeration failed") rfl

/-- C9: NewDocumentFromFile discards the error of opening the file for the
byte-level reader; when the page renderer opens the file but the byte-level
open fails, it returns a Document with no error and a nil reader. -/
theorem c9_open_error_discarded (fitzNew : String → Except Err Fitz)
    (osOpen : String → Except Err GoFile) (fn : String) (fz : Fitz) (e : Err)
    (hfz : fitzNew fn = .ok fz) (hopen : osOpen fn = .error e) :
    NewDocumentFromFile fitzNew osOpen fn =
      .ok { fz := some fz, reader := none, NumPages := fz.numPage } := by
  simp [NewDocumentFromFile, newDocument, hfz, hopen]

/-- C9 witness: concrete collaborators where fitz.New succeeds and os.Open
fails. -/
theorem c9_witness :
    NewDocumentFromFile (fun _ => .ok ⟨3⟩)
        (fun _ => .error (.external "open failed")) "a.pdf" =
      .ok { fz := some ⟨3⟩, reader := none, NumPages := 3 } :=
  c9_open_error_discarded (fun _ => .ok ⟨3⟩)
    (fun _ => .error (.external "open failed")) "a.pdf" ⟨3⟩
    (.external "open failed") rfl rfl

/-- C6 counterexample: a page for which the extraction collaborator returns
one per-page result containing TWO embedded images does not produce an
error: getImageOnPage silently returns one of the images. The length check
of the code counts per-page results, not images on the page. -/
theorem c6_counterexample :
    docTwoImages.extractRaw 0 = .ok [[rawImgA, rawImgB]] ∧
    ([rawImgA, rawImgB] : List RawImg).length = 2 ∧
    getImageOnPage envSame docTwoImages 0 = .ok ([10, 11], imgW) :=
  ⟨rfl, rfl, rfl⟩

/-- C6 amended: getImageOnPage succeeds exactly when the extraction
collaborator returns exactly ONE per-page result whose image map is
non-empty, the first image of that map has a readable (non-nil) stream, its
bytes read successfully, and they decode successfully; the raw bytes and
decoded image are then returned. A page-result count other than 1, an empty
image map, a nil reader, a read failure or a decode failure is an error; a
page map with two or more images is NOT an error - an arbitrary one of them
(the first iterated) is used. -/
theorem c6_getImageOnPage_amended (env : Env) (d : Doc) (i : Nat)
    (raw : List Nat) (im : CImage) :
    getImageOnPage env d i = .ok (raw, im) ↔
      ∃ img rest, d.extractRaw i = .ok [img :: rest] ∧
        img.readerNil = false ∧ img.readResult = .ok raw ∧
        env.decompress raw = .ok im := by
  constructor
  · intro h
    rcases hx : d.extractRaw i with e | images
    · simp [getImageOnPage, hx] at h
    · rcases images with _ | ⟨imageMap, tail⟩
      · simp [getImageOnPage, hx] at h
      · rcases tail with _ | ⟨m2, t2⟩
        · rcases imageMap with _ | ⟨img, t⟩
          · simp [getImageOnPage, hx] at h
          · by_cases hnil : img.readerNil
            · simp [getImageOnPage, hx, hnil] at h
            · rcases hread : img.readResult with e2 | raw0
              · simp [getImageOnPage, hx, hnil, hread] at h
              · rcases hdec : env.decompress raw0 with e3 | dec
                · simp [getImageOnPage, hx, hnil, hread, hdec] at h
                · simp [getImageOnPage, hx, hnil, hread, hdec] at h
                  obtain ⟨hraw, him⟩ := h
                  subst hraw
                  subst him
                  exact ⟨img, t, rfl, by simpa using hnil, hread, hdec⟩
        · have hlen : ((imageMap :: m2 :: t2).length ≠ 1) := by simp
          simp [getImageOnPage, hx, hlen] at h
  · rintro ⟨img, rest, hx, hnil, hread, hdec⟩
    simp [getImageOnPage, hx, hnil, hread, hdec]

/-- C6 witness: a one-image page succeeds with its raw bytes and decoded
image. -/
theorem c6_witness : getImageOnPage envSame docOneImage 0 = .ok ([12], imgW) :=
  (c6_getImageOnPage_amended envSame docOneImage 0 [12] imgW).mpr
    ⟨rawImgB, [], rfl, rfl, rfl, rfl⟩

/-- Helper: a successful run of the page loop yields one output per iterated
page, in page order, each produced from that page's extraction, the caller's
angle for that page, and straightenImage. -/
theorem straightenedImagesFrom_ok_spec (env : Env) (d : Doc)
    (angles : List ℚ) :
    ∀ (n page : Nat) (out : List StraightenOutput),
      straightenedImagesFrom env d angles page n = .ok out →
      out.length = n ∧
      ∀ j < n, ∃ raw img a o, out[j]? = some o ∧
        getImageOnPage env d (page + j) = .ok (raw, img) ∧
        angles[page + j]? = some a ∧
        straightenImage env raw img a = .ok o := by
  intro n
  induction n with
  | zero =>
      intro page out h
      unfold straightenedImagesFrom at h
      injection h with h
      subst h
      exact ⟨rfl, fun j hj => absurd hj (Nat.not_lt_zero j)⟩
  | succ n ih =>
      intro page out h
      unfold straightenedImagesFrom at h
      rcases hg : getImageOnPage env d page with e | ⟨raw, img⟩ <;>
        simp only [hg] at h
      · exact GoResult.noConfusion h
      · rcases ha : angles[page]? with _ | a <;> simp only [ha] at h
        · exact GoResult.noConfusion h
        · rcases hs : straightenImage env raw img a with e2 | fixed <;>
            simp only [hs] at h
          · exact GoResult.noConfusion h
          · rcases hr : straightenedImagesFrom env d angles (page + 1) n with
              rest | e3 | m <;> simp only [hr] at h
            · injection h with h
              subst h
              obtain ⟨hlen, hspec⟩ := ih (page + 1) rest hr
              refine ⟨by simp [hlen], ?_⟩
              intro j hj
              cases j with
              | zero =>
                  exact ⟨raw, img, a, fixed, by simp, by simpa using hg,
                    by simpa using ha, hs⟩
              | succ k =>
                  obtain ⟨raw2, img2, a2, o2, ho, hg2, ha2, hs2⟩ :=
                    hspec k (by omega)
                  refine ⟨raw2, img2, a2, o2, by simpa using ho, ?_, ?_, hs2⟩
                  · rw [show page + (k + 1) = page + 1 + k from by omega]
                    exact hg2
                  · rw [show page + (k + 1) = page + 1 + k from by omega]
                    exact ha2
            · exact GoResult.noConfusion h
            · exact GoResult.noConfusion h

/-- Helper: when the angle slice covers every iterated page, the page loop
never panics. -/
theorem straightenedImagesFrom_no_panic (env : Env) (d : Doc)
    (angles : List ℚ) :
    ∀ (n page : Nat), page + n ≤ angles.length →
      ∀ m, straightenedImagesFrom env d angles page n ≠ .panicked m := by
  intro n
  induction n with
  | zero =>
      intro page hle m h
      unfold straightenedImagesFrom at h
      simp at h
  | succ n ih =>
      intro page hle m h
      unfold straightenedImagesFrom at h
      rcases hg : getImageOnPage env d page with e | ⟨raw, img⟩ <;>
        simp only [hg] at h
      · exact GoResult.noConfusion h
      · have hpl : page < angles.length := by omega
        simp only [List.getElem?_eq_getElem hpl] at h
        rcases hs : straightenImage env raw img angles[page] with
          e2 | fixed <;> simp only [hs] at h
        · exact GoResult.noConfusion h
        · rcases hr : straightenedImagesFrom env d angles (page + 1) n with
            rest | e3 | m2 <;> simp only [hr] at h
          · exact GoResult.noConfusion h
          · exact GoResult.noConfusion h
          · exact ih (page + 1) (by omega) m2 hr

/-- Helper: when the angle slice is shorter than the iterated pages and
every page reached succeeds at its extraction and straightening, the page
loop panics with an index-out-of-range error. -/
theorem straightenedImagesFrom_panics (env : Env) (d : Doc)
    (angles : List ℚ) :
    ∀ (n page : Nat), page ≤ angles.length → angles.length < page + n →
      (∀ j, page ≤ j → j ≤ angles.length →
        ∃ r i, getImageOnPage env d j = .ok (r, i)) →
      (∀ j raw img a, page ≤ j → j < angles.length → angles[j]? = some a →
        getImageOnPage env d j = .ok (raw, img) →
        ∃ o, straightenImage env raw img a = .ok o) →
      straightenedImagesFrom env d angles page n =
        .panicked "index out of range" := by
  intro n
  induction n with
  | zero =>
      intro page h1 h2 _ _
      omega
  | succ n ih =>
      intro page h1 h2 hget hstr
      obtain ⟨r, i, hg⟩ := hget page le_rfl h1
      unfold straightenedImagesFrom
      by_cases hp : page < angles.length
      · have ha : angles[page]? = some angles[page] :=
          List.getElem?_eq_getElem hp
        obtain ⟨o, ho⟩ := hstr page r i angles[page] le_rfl hp ha hg
        have hrec := ih (page + 1) (by omega) (by omega)
          (fun j hj1 hj2 => hget j (by omega) hj2)
          (fun j raw img a hj1 hj2 haj hgj =>
            hstr j raw img a (by omega) hj2 haj hgj)
        simp only [hg, ha, ho, hrec]
      · have ha : angles[page]? = none := by
          rw [List.getElem?_eq_none]
          omega
        simp only [hg, ha]

/-- C5: for every document whose pages all succeed, StraightenedImages
produces exactly one transformed image per input page, in page order (the
j-th output comes from the j-th page and the j-th caller angle), and
Straighten assembles - through the import collaborator, whose contract is
one page per image - an output document with exactly as many pages as the
input document. -/
theorem c5_page_count_preservation (env : Env) (d : Doc) (angles : List ℚ)
    (himp : ∀ cfg imgs pdf, env.importImages cfg imgs = .ok pdf →
      pdf.pages = imgs) :
    (∀ out, StraightenedImages env d angles = .ok out →
      out.length = d.numPages ∧
      ∀ j < d.numPages, ∃ raw img a o, out[j]? = some o ∧
        getImageOnPage env d j = .ok (raw, img) ∧ angles[j]? = some a ∧
        straightenImage env raw img a = .ok o) ∧
    (∀ pdf, Straighten env d angles = .ok pdf →
      pdf.pages.length = d.numPages) := by
  constructor
  · intro out h
    obtain ⟨hlen, hspec⟩ :=
      straightenedImagesFrom_ok_spec env d angles d.numPages 0 out h
    refine ⟨hlen, ?_⟩
    intro j hj
    simpa using hspec j hj
  · intro pdf h
    unfold Straighten at h
    rcases hs : StraightenedImages env d angles with imgs | e | m <;>
      simp only [hs] at h
    · unfold buildNewPDF at h
      rcases hb : env.importImages { scale := 1, pos := .full } imgs with
        e2 | pdf2 <;> simp only [hb] at h
      · simp at h
      · injection h with h
        subst h
        rw [himp _ _ _ hb]
        exact (straightenedImagesFrom_ok_spec env d angles d.numPages 0
          imgs hs).1
    · simp at h
    · simp at h

/-- C5 witness: a concrete one-page document yields one output, and the
output count equals the page count. -/
theorem c5_witness :
    StraightenedImages envSame docOneImage [0] = .ok [.passthrough [12]] ∧
    ([StraightenOutput.passthrough [12]] : List StraightenOutput).length =
      docOneImage.numPages := by
  have h : StraightenedImages envSame docOneImage [0] =
      .ok [.passthrough [12]] := rfl
  exact ⟨h, ((c5_page_count_preservation envSame docOneImage [0]
    (by
      intro cfg imgs pdf hp
      injection hp with hp
      rw [← hp])).1 [.passthrough [12]] h).1⟩

/-- C10: indexing the caller-supplied angle slice with every page index is
unguarded: when the slice covers all pages neither StraightenedImages nor
Straighten can panic, and when the slice is shorter (and the pages reached
succeed) both panic with an index-out-of-range runtime error rather than
returning an error value. -/
theorem c10_bounds (env : Env) (d : Doc) (angles : List ℚ) :
    (d.numPages ≤ angles.length →
      ∀ m, StraightenedImages env d angles ≠ .panicked m ∧
        Straighten env d angles ≠ .panicked m) ∧
    (angles.length < d.numPages →
      (∀ j, j ≤ angles.length → ∃ r i, getImageOnPage env d j = .ok (r, i)) →
      (∀ j raw img a, j < angles.length → angles[j]? = some a →
        getImageOnPage env d j = .ok (raw, img) →
        ∃ o, straightenImage env raw img a = .ok o) →
      StraightenedImages env d angles = .panicked "index out of range" ∧
      Straighten env d angles = .panicked "index out of range") := by
  constructor
  · intro hle m
    have h1 : StraightenedImages env d angles ≠ .panicked m :=
      straightenedImagesFrom_no_panic env d angles d.numPages 0 (by omega) m
    refine ⟨h1, ?_⟩
    intro h
    unfold Straighten at h
    rcases hs : StraightenedImages env d angles with imgs | e | m2 <;>
      simp only [hs] at h
    · unfold buildNewPDF at h
      rcases hb : env.importImages { scale := 1, pos := .full } imgs with
        e2 | pdf2 <;> simp only [hb] at h <;> simp at h
    · simp at h
    · injection h with h
      rw [h] at hs
      exact h1 hs
  · intro hlt hget hstr
    have h1 : StraightenedImages env d angles =
        .panicked "index out of range" :=
      straightenedImagesFrom_panics env d angles d.numPages 0 (by omega)
        (by omega)
        (fun j hj1 hj2 => hget j hj2)
        (fun j raw img a hj1 hj2 ha hg => hstr j raw img a hj2 ha hg)
    refine ⟨h1, ?_⟩
    unfold Straighten
    rw [h1]

/-- C10 witness: with an empty angle slice a one-page document panics; with
a covering slice it cannot panic. -/
theorem c10_witness :
    StraightenedImages envSame docOneImage [] = .panicked "index out of range" ∧
    ∀ m, StraightenedImages envSame docOneImage [0] ≠ .panicked m := by
  constructor
  · exact ((c10_bounds envSame docOneImage []).2 (by decide)
      (fun j hj => by
        have hj0 : j = 0 := by simpa using hj
        subst hj0
        exact ⟨[12], imgW, rfl⟩)
      (fun j raw img a hj => absurd hj (by simp))).1
  · intro m
    exact ((c10_bounds envSame docOneImage [0]).1 (by decide) m).1

end Pdfstraighten
